import Mathlib

/-!
# libsmdpkt_wrapper: the interposed `open` and `poll` of `src/wrapper.c`

A shallow embedding of the three functions of `wrapper.c`
(`is_smd_device`, `open`, `poll`) and of the one global they share (`smd_fd`).

* C `int` and `short` values are integers (`Int`); the bit operators `&`, `|`, `~` are
  `Int.land`, `Int.lor`, `Int.lnot` (two's complement on unbounded integers, which agrees
  with C on every value of the machine type: clearing or setting one of the low bits of a
  `short` never leaves the range of `short`).  The only arithmetic that can leave its type is
  `poll_ret++`, which is wrapped to 32 bits explicitly (`wrapInt`).
* The array `fds[0 .. nfds-1]` is a list of `pollfd` records; `nfds` is its length.
* Whatever the wrapper reaches through `dlsym` or through a system call is a parameter:
  the underlying `open` and `poll`, `fstat`, `readlink`, `ioctl`.
* The global `smd_fd` is threaded explicitly: every operation takes its value and returns
  the value it leaves behind.
-/

namespace SmdWrapper

/-! ## Constants of the system headers -/

/-- Value of `POLLIN` in `poll.h` (Linux), the header the source includes. -/
def POLLIN : Int := 1

/-- Value of `POLLOUT` in `poll.h` (Linux). -/
def POLLOUT : Int := 4

/-- Value of `POLLERR` in `poll.h` (Linux). -/
def POLLERR : Int := 8

/-- Value of `POLLHUP` in `poll.h` (Linux). -/
def POLLHUP : Int := 16

/-- Value of `POLLNVAL` in `poll.h` (Linux). -/
def POLLNVAL : Int := 32

/-- Value of `S_IFMT` in `sys/stat.h` (Linux): the file-type bits of `st_mode`. -/
def S_IFMT : Nat := 0o170000

/-- Value of `S_IFCHR` in `sys/stat.h` (Linux): the file type "character device". -/
def S_IFCHR : Nat := 0o020000

/-- The macro `S_ISCHR(m)` of `sys/stat.h`: `((m) & S_IFMT) == S_IFCHR`. -/
def S_ISCHR (st_mode : Nat) : Bool := (st_mode &&& S_IFMT) == S_IFCHR

/-- `SMD_PKT_IOCTL_MAGIC`, line 52. -/
def SMD_PKT_IOCTL_MAGIC : Nat := 0xC2

/-- The macro `_IOR(type, nr, size)` of `linux/ioctl.h` (generic layout): direction
`_IOC_READ = 2` in bits 30-31, the argument size in bits 16-29, the type in bits 8-15 and
the number in bits 0-7. -/
def _IOR (type nr size : Nat) : Nat := (2 <<< 30) ||| (size <<< 16) ||| (type <<< 8) ||| nr

/-- `SMD_PKT_IOCTL_BLOCKING_WRITE`, lines 54-55: `_IOR(SMD_PKT_IOCTL_MAGIC, 0, unsigned int)`,
with `sizeof(unsigned int) = 4`. -/
def SMD_PKT_IOCTL_BLOCKING_WRITE : Nat := _IOR SMD_PKT_IOCTL_MAGIC 0 4

/-! ## Machine integers -/

/-- A value brought back into the range of a 32-bit two's complement `int`. -/
def wrapInt (x : Int) : Int := (x + 2147483648) % 4294967296 - 2147483648

/-! ## Data model -/

/-- `struct pollfd` of `poll.h`: `int fd; short events; short revents;`. -/
structure pollfd where
  fd : Int
  events : Int
  revents : Int
deriving DecidableEq, Repr

/-- The part of `struct stat` that `is_smd_device` reads. -/
structure stat where
  st_mode : Nat
  st_rdev : Nat
deriving DecidableEq, Repr

/-- The initial value of the global `smd_fd`, line 57: `static int smd_fd = -1;`. -/
def smd_fd_init : Int := -1

/-- The underlying `poll` that `dlsym(RTLD_NEXT, "poll")` yields: given the array and the
timeout it returns the array as it leaves it and its return value.  It is handed a pointer
and `nfds`, so it may rewrite any field of any entry but cannot change the number of
entries. -/
structure real_poll where
  run : List pollfd → Int → List pollfd × Int
  length_run : ∀ fds timeout, (run fds timeout).1.length = fds.length

/-- The system calls `is_smd_device` and `open` make, as the wrapper sees them. -/
structure System where
  /-- The call `fstat(fd, &stat)`: `none` when it returns non-zero, else the status. -/
  fstat : Int → Option stat
  /-- The macro `major` of `sys/sysmacros.h` (an `unsigned int`). -/
  major : Nat → Nat
  /-- The macro `minor` of `sys/sysmacros.h` (an `unsigned int`). -/
  minor : Nat → Nat
  /-- The contents of the symbolic link at a path: `none` when `readlink` returns a
  negative value. -/
  readlink : List Char → Option (List Char)
  /-- The bytes of the stack that `linkpath` occupies, and those above it, before
  `readlink` writes to it (the array is not initialised). -/
  linkpath_mem : List Char
  /-- The return value of `ioctl(fd, request, arg)`, with `arg` the value pointed to. -/
  ioctl : Int → Nat → Nat → Int

/-- A system call issued by the wrapper. -/
inductive Call where
  | fstat (fd : Int)
  | readlink (path : List Char)
  | ioctl (fd : Int) (request : Nat) (arg : Nat)
deriving DecidableEq, Repr

/-! ## `is_smd_device`, lines 59-80 -/

/-- The terminating byte of a C string. -/
def NUL : Char := Char.ofNat 0

/-- The C string that starts at the first byte of a region of memory: its bytes up to,
and without, the first NUL. -/
def c_str (mem : List Char) : List Char := mem.takeWhile (fun c => c != NUL)

/-- Whether `strstr(haystack, needle)` is not `NULL`: the needle occurs in the C string at
`haystack`. -/
def strstr (haystack needle : List Char) : Bool := decide (needle <:+: c_str haystack)

/-- What `printf` writes for `%d`, given an `unsigned int` argument. -/
def fmt_d (x : Nat) : List Char := (toString (wrapInt (x % 4294967296))).toList

/-- The characters `snprintf(path, size, "/sys/dev/char/%d:%d", a, b)` formats, before
truncation to the buffer. -/
def sys_dev_char (a b : Nat) : List Char :=
  ("/sys/dev/char/").toList ++ fmt_d a ++ [':'] ++ fmt_d b

/-- The buffer after `readlink(path, buf, bufsiz)` succeeded on a link with the given
contents: the first `bufsiz` bytes of the contents, no terminator, the rest of memory as it
was. -/
def readlink_buf (contents mem : List Char) (bufsiz : Nat) : List Char :=
  contents.take bufsiz ++ mem.drop (min contents.length bufsiz)

/-- The function `is_smd_device(fd)`, lines 59-80, with the system calls it makes. -/
def is_smd_device_calls (sys : System) (fd : Int) : Bool × List Call :=
  match sys.fstat fd with
  | none => (false, [Call.fstat fd])
  | some st =>
    if !S_ISCHR st.st_mode then (false, [Call.fstat fd])
    else
      let formatted := sys_dev_char (sys.major st.st_rdev) (sys.minor st.st_rdev)
      let path := formatted.take 63
      if (formatted.length : Int) < 0 then (false, [Call.fstat fd])
      else
        match sys.readlink path with
        | none => (false, [Call.fstat fd, Call.readlink path])
        | some contents =>
          let linkpath := readlink_buf contents sys.linkpath_mem 128
          (strstr linkpath ("/smdpkt/").toList, [Call.fstat fd, Call.readlink path])

/-- The value `is_smd_device(fd)` returns (a `char` that is 0 or 1). -/
def is_smd_device (sys : System) (fd : Int) : Bool := (is_smd_device_calls sys fd).1

/-! ## `open`, lines 82-93 -/

/-- What a call of the wrapped `open` leaves: the global, the return value and the system
calls the wrapper made besides the underlying `open`. -/
structure OpenResult where
  smd_fd : Int
  ret : Int
  calls : List Call
deriving DecidableEq, Repr

/-- The wrapped `open(pathname, flags)`, lines 82-93 (`open` itself is a reserved word
here, hence the name).  `real_func` is the underlying `open` found by `dlsym`. -/
def wrapper_open (smd_fd : Int) (real_func : List Char → Int → Int) (sys : System)
    (pathname : List Char) (flags : Int) : OpenResult :=
  let fd := real_func pathname flags
  if fd ≥ 0 then
    let c := is_smd_device_calls sys fd
    if c.1 then
      let blocking : Nat := 1
      let _ := sys.ioctl fd SMD_PKT_IOCTL_BLOCKING_WRITE blocking
      { smd_fd := fd, ret := fd,
        calls := c.2 ++ [Call.ioctl fd SMD_PKT_IOCTL_BLOCKING_WRITE blocking] }
    else { smd_fd := smd_fd, ret := fd, calls := c.2 }
  else { smd_fd := smd_fd, ret := fd, calls := [] }

/-! ## `poll`, lines 95-128 -/

/-- The first loop, lines 103-108, from entry `i` on: the array and the timeout it
leaves.  Iteration `i` reads and writes entry `i` only. -/
def poll_rewrite (smd_fd : Int) : List pollfd → Int → List pollfd × Int
  | [], timeout => ([], timeout)
  | p :: rest, timeout =>
    if p.fd = smd_fd ∧ Int.land p.events POLLOUT ≠ 0 then
      let r := poll_rewrite smd_fd rest 0
      ({ p with events := Int.land p.events (Int.lnot POLLOUT) } :: r.1, r.2)
    else
      let r := poll_rewrite smd_fd rest timeout
      (p :: r.1, r.2)

/-- The body of the second loop for one entry, lines 116-120: `o` is `orig_fds[i]`, `f` is
`fds[i]`. -/
def synthesize (smd_fd : Int) (o f : pollfd) : pollfd :=
  if f.fd = smd_fd ∧ Int.land o.events POLLOUT ≠ 0 then
    if Int.land f.revents (Int.lor (Int.lor POLLERR POLLHUP) POLLNVAL) = 0 then
      { f with revents := Int.lor f.revents POLLOUT }
    else f
  else f

/-- The second loop, lines 115-124, from entry `i` on: the array and the `poll_ret` it
leaves.  The first list is `orig_fds`, the second `fds`; both have `nfds` entries. -/
def poll_reconcile (smd_fd : Int) : List pollfd → List pollfd → Int → List pollfd × Int
  | o :: os, f :: fs, poll_ret =>
    let g := synthesize smd_fd o f
    let r := poll_reconcile smd_fd os fs (if g.revents ≠ 0 then wrapInt (poll_ret + 1) else poll_ret)
    (g :: r.1, r.2)
  | _, _, poll_ret => ([], poll_ret)

/-- The array and the timeout the wrapped `poll` hands to the underlying `poll`,
lines 100-111. -/
def poll_args (smd_fd : Int) (fds : List pollfd) (timeout : Int) : List pollfd × Int :=
  if smd_fd ≥ 0 then poll_rewrite smd_fd fds timeout else (fds, timeout)

/-- What the underlying `poll` returns when the wrapped `poll` calls it, line 111: the
array as it leaves it, and its return value. -/
def poll_under (smd_fd : Int) (real_func : real_poll) (fds : List pollfd) (timeout : Int) :
    List pollfd × Int :=
  real_func.run (poll_args smd_fd fds timeout).1 (poll_args smd_fd fds timeout).2

/-- What a call of the wrapped `poll` leaves: the global, the caller's array and the
return value. -/
structure PollResult where
  smd_fd : Int
  fds : List pollfd
  ret : Int
deriving DecidableEq, Repr

/-- The wrapped `poll(fds, nfds, timeout)`, lines 95-128. -/
def poll (smd_fd : Int) (real_func : real_poll) (fds : List pollfd) (timeout : Int) :
    PollResult :=
  let orig_fds := fds
  let under := poll_under smd_fd real_func fds timeout
  if smd_fd ≥ 0 then
    let r := poll_reconcile smd_fd orig_fds under.1 0
    { smd_fd := smd_fd, fds := r.1, ret := r.2 }
  else { smd_fd := smd_fd, fds := under.1, ret := under.2 }

/-- The number of entries of an array whose `revents` is non-zero. -/
def ready_count (fds : List pollfd) : Nat := fds.countP (fun p => p.revents ≠ 0)

/-- The error bits that take precedence over the synthesized `POLLOUT`, line 117:
`POLLERR | POLLHUP | POLLNVAL`. -/
def error_mask : Int := Int.lor (Int.lor POLLERR POLLHUP) POLLNVAL

/-- The test of line 104 on an entry of the caller's array: its descriptor is the tracked
one and its requested events include `POLLOUT`. -/
def participates (smd_fd : Int) (p : pollfd) : Prop :=
  p.fd = smd_fd ∧ Int.land p.events POLLOUT ≠ 0

instance (smd_fd : Int) (p : pollfd) : Decidable (participates smd_fd p) := by
  unfold participates
  infer_instance

/-- The assignment of line 105 to one entry: `events &= ~POLLOUT`. -/
def clear_POLLOUT (p : pollfd) : pollfd :=
  { p with events := Int.land p.events (Int.lnot POLLOUT) }

/-- Whether a system call of the wrapper is an `ioctl`. -/
def Call.is_ioctl : Call → Bool
  | Call.ioctl _ _ _ => true
  | _ => false

/-- A call of one of the two wrapped functions, with everything it depends on besides the
global: the underlying function, the system (for `open`) and the arguments. -/
inductive Op where
  | call_open (real_func : List Char → Int → Int) (sys : System) (pathname : List Char)
      (flags : Int)
  | call_poll (real_func : real_poll) (fds : List pollfd) (timeout : Int)

/-- The value of `smd_fd` after one call made when it holds `smd_fd`. -/
def step (smd_fd : Int) : Op → Int
  | Op.call_open real_func sys pathname flags =>
    (wrapper_open smd_fd real_func sys pathname flags).smd_fd
  | Op.call_poll real_func fds timeout => (poll smd_fd real_func fds timeout).smd_fd

/-- The value of `smd_fd` after a sequence of calls, made in order from the value
`smd_fd`. -/
def run (smd_fd : Int) (ops : List Op) : Int := ops.foldl step smd_fd

/-! ## Sample underlying calls and systems -/

/-- An underlying `poll` that writes `report p` into the `revents` of every entry `p`,
leaves descriptors and requested events untouched, and returns `ret`. -/
def stub_poll (report : pollfd → Int) (ret : Int) : real_poll where
  run := fun fds _ => (fds.map (fun p => { p with revents := report p }), ret)
  length_run := by intro fds _; simp

/-- An underlying `poll` that fails: it returns `-1` and leaves the array as it is. -/
def failing_poll : real_poll where
  run := fun fds _ => (fds, -1)
  length_run := by intro fds _; rfl

/-- An underlying `poll` that reports an entry readable (`POLLIN`, if requested) exactly
when its descriptor is in `readable`, and returns the number of entries it reports. -/
def readable_poll (readable : List Int) : real_poll where
  run := fun fds _ =>
    (fds.map (fun p =>
        { p with revents := if p.fd ∈ readable then Int.land p.events POLLIN else 0 }),
      (fds.countP (fun p => p.fd ∈ readable ∧ Int.land p.events POLLIN ≠ 0) : Int))
  length_run := by intro fds _; simp

/-- A system in which every descriptor has the same status and the same registry link:
`fstat` yields mode `mode` (or fails, for `none`), the link reads as `link` (or cannot be
read), the stack under `linkpath` holds `mem`, and `ioctl` returns `ioctl_ret`. -/
def sample_system (mode : Option Nat) (link : Option (List Char)) (mem : List Char)
    (ioctl_ret : Int) : System where
  fstat := fun _ => mode.map (fun m => ⟨m, 63747⟩)
  major := fun d => d / 256
  minor := fun d => d % 256
  readlink := fun _ => link
  linkpath_mem := mem
  ioctl := fun _ _ _ => ioctl_ret

/-- The registry link of an smdpkt character device. -/
def smd_link : List Char := ("../../devices/virtual/smdpkt/smdcntl0").toList

/-- The registry link of `/dev/null`. -/
def null_link : List Char := ("../../devices/virtual/mem/null").toList

/-- A system whose character devices are all smdpkt devices, with the stack zeroed and a
failing `ioctl`. -/
def smd_system : System :=
  sample_system (some 0o020660) (some smd_link) (List.replicate 160 NUL) (-1)

/-- A system whose character devices are all `/dev/null`, with the stack zeroed. -/
def null_system : System :=
  sample_system (some 0o020666) (some null_link) (List.replicate 160 NUL) 0

/-- A registry link of 18 bytes that does not name the smdpkt driver. -/
def short_link : List Char := ("../../devices/null").toList

/-- A system whose character devices all have the link `short_link`, while the stack
under `linkpath` still holds the NUL-terminated text of `smd_link`, as an earlier call of
`is_smd_device` on an smdpkt device leaves it. -/
def stale_system : System :=
  sample_system (some 0o020666) (some short_link) (smd_link ++ List.replicate 91 NUL) 0

/-! ## Auxiliary facts about the two loops -/

theorem land_POLLOUT_self : Int.land POLLOUT POLLOUT = 4 := by decide

theorem land_POLLOUT_lnot : Int.land POLLOUT (Int.lnot POLLOUT) = 0 := by
  with_unfolding_all decide

theorem land_POLLIN_POLLOUT : Int.land POLLIN POLLOUT = 0 := by decide

theorem lor_zero_POLLOUT : Int.lor 0 POLLOUT = POLLOUT := by decide

theorem land_zero_error_mask :
    Int.land 0 (Int.lor (Int.lor POLLERR POLLHUP) POLLNVAL) = 0 := by decide

theorem wrapInt_succ (k : Int) (h0 : 0 ≤ k) (h1 : k + 1 < 2147483648) :
    wrapInt (k + 1) = k + 1 := by
  unfold wrapInt
  omega

theorem poll_reconcile_count (smd_fd : Int) :
    ∀ (os fs : List pollfd) (k : Int), 0 ≤ k → k + (fs.length : Int) < 2147483648 →
      (poll_reconcile smd_fd os fs k).2
        = k + (ready_count (poll_reconcile smd_fd os fs k).1 : Int) := by
  intro os
  induction os with
  | nil => intro fs k _ _; simp [poll_reconcile, ready_count]
  | cons o os ih =>
    intro fs k h0 h1
    cases fs with
    | nil => simp [poll_reconcile, ready_count]
    | cons f fs =>
      simp only [poll_reconcile, List.length_cons, Nat.cast_add, Nat.cast_one] at h1 ⊢
      by_cases hg : (synthesize smd_fd o f).revents = 0
      · have := ih fs k h0 (by omega)
        simp [hg, ready_count] at this ⊢
        exact this
      · have hw := wrapInt_succ k h0 (by omega)
        have := ih fs (k + 1) (by omega) (by omega)
        simp [hg, hw, ready_count] at this ⊢
        rw [this]; ring

theorem poll_reconcile_fds (smd_fd : Int) :
    ∀ (os fs : List pollfd) (k : Int),
      (poll_reconcile smd_fd os fs k).1 = List.zipWith (synthesize smd_fd) os fs := by
  intro os
  induction os with
  | nil => intro fs k; simp [poll_reconcile]
  | cons o os ih =>
    intro fs k
    cases fs with
    | nil => simp [poll_reconcile]
    | cons f fs => simp [poll_reconcile, ih]

theorem poll_rewrite_length (smd_fd : Int) :
    ∀ (fds : List pollfd) (timeout : Int),
      (poll_rewrite smd_fd fds timeout).1.length = fds.length := by
  intro fds
  induction fds with
  | nil => intro t; simp [poll_rewrite]
  | cons p rest ih =>
    intro t
    unfold poll_rewrite
    split <;> simp [ih]

theorem poll_rewrite_fds (smd_fd : Int) :
    ∀ (fds : List pollfd) (timeout : Int),
      (poll_rewrite smd_fd fds timeout).1
        = fds.map (fun p => if participates smd_fd p then clear_POLLOUT p else p) := by
  intro fds
  induction fds with
  | nil => intro t; simp [poll_rewrite]
  | cons p rest ih =>
    intro t
    unfold poll_rewrite
    by_cases h : p.fd = smd_fd ∧ Int.land p.events POLLOUT ≠ 0
    · simp only [h, and_self, if_true, not_false_eq_true, ne_eq, List.map_cons, ih]
      simp [participates, clear_POLLOUT, h]
    · rw [if_neg h]
      simp only [List.map_cons, ih]
      simp [participates, h]

theorem poll_rewrite_timeout (smd_fd : Int) :
    ∀ (fds : List pollfd) (timeout : Int),
      (poll_rewrite smd_fd fds timeout).2
        = if ∃ p ∈ fds, participates smd_fd p then 0 else timeout := by
  intro fds
  induction fds with
  | nil => intro t; simp [poll_rewrite]
  | cons p rest ih =>
    intro t
    unfold poll_rewrite
    by_cases h : p.fd = smd_fd ∧ Int.land p.events POLLOUT ≠ 0
    · have hp : participates smd_fd p := h
      rw [if_pos h]
      simp only [ih, List.mem_cons, exists_eq_or_imp, hp, true_or, if_true]
      split <;> rfl
    · have hp : ¬ participates smd_fd p := h
      rw [if_neg h]
      simp only [ih, List.mem_cons, exists_eq_or_imp, hp, false_or]

theorem is_smd_device_calls_no_ioctl (sys : System) (fd : Int) :
    (is_smd_device_calls sys fd).2.filter Call.is_ioctl = [] := by
  unfold is_smd_device_calls
  split
  · rfl
  · split
    · rfl
    · simp only []
      split
      · rfl
      · split <;> rfl

theorem poll_smd_fd (smd_fd : Int) (real_func : real_poll) (fds : List pollfd)
    (timeout : Int) : (poll smd_fd real_func fds timeout).smd_fd = smd_fd := by
  unfold poll
  split <;> rfl

theorem wrapper_open_smd_fd (smd_fd : Int) (real_func : List Char → Int → Int)
    (sys : System) (pathname : List Char) (flags : Int) :
    (wrapper_open smd_fd real_func sys pathname flags).smd_fd = smd_fd ∨
    0 ≤ (wrapper_open smd_fd real_func sys pathname flags).smd_fd := by
  unfold wrapper_open
  by_cases h0 : 0 ≤ real_func pathname flags
  · by_cases h1 : (is_smd_device_calls sys (real_func pathname flags)).1 = true
    · right; simp [h0, h1]
    · left; simp [h0, h1]
  · left; simp [h0]

theorem step_preserves (smd_fd : Int) (op : Op) :
    step smd_fd op = smd_fd ∨ 0 ≤ step smd_fd op := by
  cases op with
  | call_open real_func sys pathname flags =>
    exact wrapper_open_smd_fd smd_fd real_func sys pathname flags
  | call_poll real_func fds timeout =>
    left; exact poll_smd_fd smd_fd real_func fds timeout

theorem run_nonneg (ops : List Op) :
    ∀ smd_fd : Int, 0 ≤ smd_fd → 0 ≤ run smd_fd ops := by
  induction ops with
  | nil => intro s h; exact h
  | cons op rest ih =>
    intro s h
    have hs : 0 ≤ step s op := by
      rcases step_preserves s op with h1 | h1
      · rw [h1]; exact h
      · exact h1
    exact ih (step s op) hs

theorem run_unset_or_nonneg (ops : List Op) :
    ∀ smd_fd : Int, smd_fd = -1 ∨ 0 ≤ smd_fd → run smd_fd ops = -1 ∨ 0 ≤ run smd_fd ops := by
  induction ops with
  | nil => intro s h; exact h
  | cons op rest ih =>
    intro s h
    have hs : step s op = -1 ∨ 0 ≤ step s op := by
      rcases step_preserves s op with h1 | h1
      · rw [h1]; exact h
      · exact Or.inr h1
    exact ih (step s op) hs

theorem land_clear_POLLOUT (e : Int) :
    Int.land (Int.land e (Int.lnot POLLOUT)) POLLOUT = 0 := by
  cases e with
  | ofNat m =>
    show ((Nat.land (Nat.ldiff m 4) 4 : Nat) : Int) = 0
    have h : Nat.land (Nat.ldiff m 4) 4 = 0 := by
      apply Nat.eq_of_testBit_eq
      intro i
      show (Nat.ldiff m 4 &&& 4).testBit i = Nat.testBit 0 i
      rw [Nat.testBit_land, Nat.testBit_ldiff]
      simp
    rw [h]; rfl
  | negSucc m =>
    show ((Nat.ldiff 4 (m ||| 4) : Nat) : Int) = 0
    have h : Nat.ldiff 4 (m ||| 4) = 0 := by
      apply Nat.eq_of_testBit_eq
      intro i
      rw [Nat.testBit_ldiff, Nat.testBit_lor]
      simp
      intro h4; simp [h4]
    rw [h]; rfl

theorem poll_rewrite_no_participant (smd_fd : Int) (fds : List pollfd) (timeout : Int)
    (hnone : ∀ p ∈ fds, ¬ participates smd_fd p) :
    poll_rewrite smd_fd fds timeout = (fds, timeout) := by
  have h1 := poll_rewrite_fds smd_fd fds timeout
  have h2 := poll_rewrite_timeout smd_fd fds timeout
  have h3 : ¬ ∃ p ∈ fds, participates smd_fd p := by
    rintro ⟨p, hp, hq⟩
    exact hnone p hp hq
  have h4 : fds.map (fun p => if participates smd_fd p then clear_POLLOUT p else p) = fds := by
    conv_rhs => rw [← List.map_id fds]
    apply List.map_congr_left
    intro p hp
    simp [hnone p hp]
  rw [if_neg h3] at h2
  rw [h4] at h1
  exact Prod.ext h1 h2

theorem zipWith_synthesize_keep (smd_fd : Int) :
    ∀ (os fs : List pollfd), os.length = fs.length →
      (List.zipWith (synthesize smd_fd) os fs).map (fun p => (p.fd, p.events))
        = fs.map (fun p => (p.fd, p.events)) := by
  intro os
  induction os with
  | nil =>
    intro fs h
    cases fs with
    | nil => rfl
    | cons f fs => simp at h
  | cons o os ih =>
    intro fs h
    cases fs with
    | nil => simp at h
    | cons f fs =>
      simp only [List.length_cons, add_left_inj] at h
      simp only [List.zipWith_cons_cons, List.map_cons, ih fs h, List.cons.injEq, and_true]
      unfold synthesize
      split
      · split <;> rfl
      · rfl

theorem zipWith_synthesize_no_participant (smd_fd : Int) :
    ∀ (os fs : List pollfd), fs.map pollfd.fd = os.map pollfd.fd →
      (∀ o ∈ os, ¬ participates smd_fd o) →
      List.zipWith (synthesize smd_fd) os fs = fs := by
  intro os
  induction os with
  | nil =>
    intro fs h _
    cases fs with
    | nil => rfl
    | cons f fs => simp at h
  | cons o os ih =>
    intro fs h hnone
    cases fs with
    | nil => rfl
    | cons f fs =>
      simp only [List.map_cons, List.cons.injEq] at h
      have ho : ¬ (f.fd = smd_fd ∧ Int.land o.events POLLOUT ≠ 0) := by
        rw [h.1]
        exact hnone o (List.mem_cons_self o os)
      have ht := ih fs h.2 (fun q hq => hnone q (List.mem_cons_of_mem o hq))
      simp only [List.zipWith_cons_cons, ht, List.cons.injEq, and_true]
      simp only [synthesize, if_neg ho]

theorem poll_under_length (smd_fd : Int) (real_func : real_poll) (fds : List pollfd)
    (timeout : Int) : (poll_under smd_fd real_func fds timeout).1.length = fds.length := by
  unfold poll_under
  rw [real_func.length_run]
  unfold poll_args
  split
  · exact poll_rewrite_length smd_fd fds timeout
  · rfl

/-! ## The claims -/

/-- C1. Count correctness: when the tracked descriptor is set (`smd_fd ≥ 0`), for every
array (of fewer than 2^31 entries, so that the `int` counter cannot overflow), every
timeout and every underlying `poll`, the value the wrapped `poll` returns is the number of
entries of the final array whose `revents` is non-zero, whatever the underlying `poll`
returned. -/
theorem poll_ret_eq_ready_count (smd_fd : Int) (real_func : real_poll) (fds : List pollfd)
    (timeout : Int) (hset : 0 ≤ smd_fd) (hlen : fds.length < 2147483648) :
    (poll smd_fd real_func fds timeout).ret
      = (ready_count (poll smd_fd real_func fds timeout).fds : Int) := by
  have hl := poll_under_length smd_fd real_func fds timeout
  have h := poll_reconcile_count smd_fd fds (poll_under smd_fd real_func fds timeout).1 0
    (le_refl _) (by rw [hl]; omega)
  simp only [poll, ge_iff_le, hset, if_true]
  simpa using h

/-- The count theorem at a three-entry array with a duplicate of the tracked descriptor 3. -/
theorem poll_ret_eq_ready_count_witness :
    (0 : Int) ≤ 3 ∧
    ([⟨3, 5, 0⟩, ⟨7, 1, 0⟩, ⟨3, 4, 9⟩] : List pollfd).length < 2147483648 ∧
    (poll 3 (readable_poll [7]) [⟨3, 5, 0⟩, ⟨7, 1, 0⟩, ⟨3, 4, 9⟩] (-1)).ret
      = (ready_count
          (poll 3 (readable_poll [7]) [⟨3, 5, 0⟩, ⟨7, 1, 0⟩, ⟨3, 4, 9⟩] (-1)).fds : Int) :=
  ⟨by decide, by decide,
    poll_ret_eq_ready_count 3 (readable_poll [7]) [⟨3, 5, 0⟩, ⟨7, 1, 0⟩, ⟨3, 4, 9⟩] (-1)
      (by decide) (by decide)⟩

/-- C2. Synthesis with error precedence, entry by entry: with the tracked descriptor set,
for every entry `i` whose descriptor is the tracked descriptor (and is left so by the
underlying `poll`) and whose requested events, as the caller passed them, include
`POLLOUT`: if the `revents` the underlying `poll` left in entry `i` contain `POLLERR`,
`POLLHUP` or `POLLNVAL`, the final entry is the underlying one unchanged; otherwise it is
the underlying one with `POLLOUT` set in `revents`.  Nothing is assumed about the other
entries, so duplicates are each judged on their own. -/
theorem poll_synthesis_error_precedence (smd_fd : Int) (real_func : real_poll)
    (fds : List pollfd) (timeout : Int) (i : Nat) (p u : pollfd)
    (hset : 0 ≤ smd_fd)
    (hp : fds[i]? = some p)
    (hu : (poll_under smd_fd real_func fds timeout).1[i]? = some u)
    (hfd : p.fd = smd_fd) (hkeep : u.fd = p.fd)
    (hout : Int.land p.events POLLOUT ≠ 0) :
    (poll smd_fd real_func fds timeout).fds[i]?
      = some (if Int.land u.revents error_mask ≠ 0 then u
              else { u with revents := Int.lor u.revents POLLOUT }) := by
  simp only [poll, ge_iff_le, hset, if_true, poll_reconcile_fds]
  rw [List.getElem?_zipWith, hp, hu]
  have hufd : u.fd = smd_fd := hkeep.trans hfd
  by_cases he : Int.land u.revents error_mask = 0
  · have he2 := he
    simp only [error_mask] at he2
    simp [synthesize, hufd, hout, he, he2]
  · have he2 := he
    simp only [error_mask] at he2
    simp [synthesize, hufd, hout, he, he2]

/-- The synthesis theorem at entry 0 of an array with two entries for the tracked
descriptor 3, where the underlying `poll` reports `POLLHUP` on entry 0. -/
theorem poll_synthesis_error_precedence_witness :
    (poll 3 (stub_poll (fun p => if p.events = 0 then POLLHUP else 0) 1)
        [⟨3, 4, 0⟩, ⟨3, 5, 0⟩] (-1)).fds[0]?
      = some (if Int.land (⟨3, 0, POLLHUP⟩ : pollfd).revents error_mask ≠ 0
              then (⟨3, 0, POLLHUP⟩ : pollfd)
              else { (⟨3, 0, POLLHUP⟩ : pollfd) with
                      revents := Int.lor (⟨3, 0, POLLHUP⟩ : pollfd).revents POLLOUT }) :=
  poll_synthesis_error_precedence 3
    (stub_poll (fun p => if p.events = 0 then POLLHUP else 0) 1)
    [⟨3, 4, 0⟩, ⟨3, 5, 0⟩] (-1) 0 ⟨3, 4, 0⟩ ⟨3, 0, POLLHUP⟩
    (by decide) (by rfl) (by with_unfolding_all decide) (by rfl) (by rfl) (by decide)

/-- C3. Pass-through when the tracked descriptor is unset (`smd_fd = -1`): the underlying
`poll` is called with exactly the caller's array and timeout, and the wrapped `poll`
returns the underlying return value and leaves the array exactly as the underlying call
left it; the global stays unset. -/
theorem poll_unset_passthrough (real_func : real_poll) (fds : List pollfd) (timeout : Int) :
    poll_args (-1) fds timeout = (fds, timeout) ∧
    (poll (-1) real_func fds timeout).fds = (real_func.run fds timeout).1 ∧
    (poll (-1) real_func fds timeout).ret = (real_func.run fds timeout).2 ∧
    (poll (-1) real_func fds timeout).smd_fd = -1 := by
  simp [poll, poll_under, poll_args]

/-- C4. Whole-operation error propagation fails when the tracked descriptor is set: at
`smd_fd = 3` and an underlying `poll` that returns `-1` and leaves the array alone, the
wrapped `poll` on the single entry (3, `POLLOUT`) returns 1 with `POLLOUT` synthesized,
and on the single entry (5, `POLLIN`) returns 0; the negative return value is lost in both
calls.  With the descriptor unset the same underlying result is returned as it is. -/
theorem poll_set_loses_negative_return :
    (∀ fds timeout, failing_poll.run fds timeout = (fds, -1)) ∧
    (poll_under 3 failing_poll [⟨3, POLLOUT, 0⟩] (-1)).2 = -1 ∧
    (poll 3 failing_poll [⟨3, POLLOUT, 0⟩] (-1)).ret = 1 ∧
    (poll 3 failing_poll [⟨3, POLLOUT, 0⟩] (-1)).fds = [⟨3, 0, POLLOUT⟩] ∧
    (poll_under 3 failing_poll [⟨5, POLLIN, 0⟩] (-1)).2 = -1 ∧
    (poll 3 failing_poll [⟨5, POLLIN, 0⟩] (-1)).ret = 0 ∧
    (poll 3 failing_poll [⟨5, POLLIN, 0⟩] (-1)).fds = [⟨5, POLLIN, 0⟩] ∧
    (poll (-1) failing_poll [⟨5, POLLIN, 0⟩] (-1)).ret = -1 := by
  refine ⟨fun _ _ => rfl, ?_⟩
  with_unfolding_all decide

/-- C5. The caller's requested events are not restored: at `smd_fd = 3`, with an
underlying `poll` that leaves descriptors and requested events untouched (it only clears
`revents` and returns 0), the wrapped `poll` on the single entry (3, `POLLOUT`) returns
with that entry's `events` equal to 0, not to the `POLLOUT` the caller passed in; a second
wrapped `poll` on the array so left hands the underlying `poll` no requested event and
the caller's timeout `-1`. -/
theorem poll_leaves_POLLOUT_cleared :
    (∀ fds timeout,
      ((stub_poll (fun _ => 0) 0).run fds timeout).1.map pollfd.fd = fds.map pollfd.fd ∧
      ((stub_poll (fun _ => 0) 0).run fds timeout).1.map pollfd.events
        = fds.map pollfd.events) ∧
    (poll 3 (stub_poll (fun _ => 0) 0) [⟨3, POLLOUT, 0⟩] (-1)).fds = [⟨3, 0, POLLOUT⟩] ∧
    (poll 3 (stub_poll (fun _ => 0) 0) [⟨3, POLLOUT, 0⟩] (-1)).fds.map pollfd.events
      ≠ ([⟨3, POLLOUT, 0⟩] : List pollfd).map pollfd.events ∧
    poll_args 3 (poll 3 (stub_poll (fun _ => 0) 0) [⟨3, POLLOUT, 0⟩] (-1)).fds (-1)
      = ([⟨3, 0, POLLOUT⟩], -1) := by
  refine ⟨fun fds _ => by simp [stub_poll, Function.comp_def], ?_⟩
  with_unfolding_all decide

/-- C6. Non-blocking synthesis: with the tracked descriptor `t` set, for every caller
timeout (`-1` included), the wrapped `poll` on the single entry (`t`, exactly `POLLOUT`)
calls the underlying `poll` with timeout 0 and with the entry's requested events empty;
and when the underlying `poll` reports no events for the entry, the wrapped `poll` returns
1 with the entry's `revents` equal to `POLLOUT`. -/
theorem poll_pollout_only_nonblocking (t : Int) (real_func : real_poll) (timeout r e : Int)
    (hset : 0 ≤ t)
    (hreal : (real_func.run [⟨t, 0, r⟩] 0).1 = [⟨t, e, 0⟩]) :
    poll_args t [⟨t, POLLOUT, r⟩] timeout = ([⟨t, 0, r⟩], 0) ∧
    (poll t real_func [⟨t, POLLOUT, r⟩] timeout).ret = 1 ∧
    (poll t real_func [⟨t, POLLOUT, r⟩] timeout).fds = [⟨t, e, POLLOUT⟩] := by
  have hargs : poll_args t [⟨t, POLLOUT, r⟩] timeout = ([⟨t, 0, r⟩], 0) := by
    simp [poll_args, poll_rewrite, hset, land_POLLOUT_self, land_POLLOUT_lnot]
  have hunder : (poll_under t real_func [⟨t, POLLOUT, r⟩] timeout).1 = [⟨t, e, 0⟩] := by
    simp only [poll_under, hargs, hreal]
  refine ⟨hargs, ?_, ?_⟩
  · simp [poll, hset, hunder, poll_reconcile, synthesize, land_POLLOUT_self, lor_zero_POLLOUT,
      land_zero_error_mask]
    decide
  · simp [poll, hset, hunder, poll_reconcile, synthesize, land_POLLOUT_self, lor_zero_POLLOUT,
      land_zero_error_mask]

/-- The non-blocking theorem at tracked descriptor 3, caller timeout `-1` and an underlying
`poll` that reports nothing. -/
theorem poll_pollout_only_nonblocking_witness :
    (0 : Int) ≤ 3 ∧
    poll_args 3 [⟨3, POLLOUT, 7⟩] (-1) = ([⟨3, 0, 7⟩], 0) ∧
    (poll 3 (stub_poll (fun _ => 0) 0) [⟨3, POLLOUT, 7⟩] (-1)).ret = 1 ∧
    (poll 3 (stub_poll (fun _ => 0) 0) [⟨3, POLLOUT, 7⟩] (-1)).fds = [⟨3, 0, POLLOUT⟩] :=
  ⟨by decide,
    poll_pollout_only_nonblocking 3 (stub_poll (fun _ => 0) 0) (-1) 7 0 (by decide) (by rfl)⟩

/-- C7, as stated, fails: from the initial state a first wrapped `open` that yields the
matching descriptor 3 records it, and a second wrapped `open` that yields the matching
descriptor 5 changes the tracked descriptor from 3 to 5. -/
theorem open_second_match_overwrites :
    (wrapper_open smd_fd_init (fun _ _ => 3) smd_system ("/dev/smdcntl0").toList 2).smd_fd = 3 ∧
    is_smd_device smd_system 5 = true ∧
    (wrapper_open 3 (fun _ _ => 5) smd_system ("/dev/smdcntl1").toList 2).smd_fd = 5 ∧
    (wrapper_open 3 (fun _ _ => 5) smd_system ("/dev/smdcntl1").toList 2).smd_fd ≠ 3 := by
  decide

/-- C7, amended. In every state, so also once a matching descriptor has been recorded, a
wrapped `open` leaves the tracked descriptor unchanged when the underlying `open` fails
or the classifier does not match the new descriptor, and replaces it by the new
descriptor when the classifier matches it. -/
theorem open_tracked_unchanged_unless_match (smd_fd : Int) (real_func : List Char → Int → Int)
    (sys : System) (pathname : List Char) (flags : Int) :
    (wrapper_open smd_fd real_func sys pathname flags).smd_fd
      = if 0 ≤ real_func pathname flags ∧ is_smd_device sys (real_func pathname flags) = true
        then real_func pathname flags else smd_fd := by
  unfold wrapper_open is_smd_device
  by_cases h0 : 0 ≤ real_func pathname flags
  · by_cases h1 : (is_smd_device_calls sys (real_func pathname flags)).1 = true
    · simp [h0, h1]
    · simp [h0, h1]
  · simp [h0]

/-- C8. Return-value transparency of `open`: for every path, flags, underlying `open`,
system (so every classifier verdict and every `ioctl` outcome) and prior state, the
wrapped `open` returns exactly what the underlying `open` returned; and when that is
negative, the wrapper makes no system call of its own (no classification, no `ioctl`) and
leaves the tracked descriptor as it was. -/
theorem open_returns_underlying (smd_fd : Int) (real_func : List Char → Int → Int)
    (sys : System) (pathname : List Char) (flags : Int) :
    (wrapper_open smd_fd real_func sys pathname flags).ret = real_func pathname flags ∧
    (real_func pathname flags < 0 →
      (wrapper_open smd_fd real_func sys pathname flags).calls = [] ∧
      (wrapper_open smd_fd real_func sys pathname flags).smd_fd = smd_fd) := by
  unfold wrapper_open
  by_cases h0 : 0 ≤ real_func pathname flags
  · by_cases h1 : (is_smd_device_calls sys (real_func pathname flags)).1 = true
    · simp [h0, h1]
    · simp [h0, h1]
  · simp [h0]

/-- The transparency theorem at a matching descriptor whose `ioctl` fails, at a
descriptor that does not match, and at a failed `open`. -/
theorem open_returns_underlying_witness :
    (wrapper_open 3 (fun _ _ => 5) smd_system ("/dev/smdcntl1").toList 2).ret = 5 ∧
    smd_system.ioctl 5 SMD_PKT_IOCTL_BLOCKING_WRITE 1 = -1 ∧
    (wrapper_open 3 (fun _ _ => 5) null_system ("/dev/null").toList 2).ret = 5 ∧
    (wrapper_open 3 (fun _ _ => -1) smd_system ("/dev/smdcntl1").toList 2).ret = -1 ∧
    (wrapper_open 3 (fun _ _ => -1) smd_system ("/dev/smdcntl1").toList 2).calls = [] ∧
    (wrapper_open 3 (fun _ _ => -1) smd_system ("/dev/smdcntl1").toList 2).smd_fd = 3 :=
  ⟨(open_returns_underlying 3 (fun _ _ => 5) smd_system ("/dev/smdcntl1").toList 2).1,
    by rfl,
    (open_returns_underlying 3 (fun _ _ => 5) null_system ("/dev/null").toList 2).1,
    (open_returns_underlying 3 (fun _ _ => -1) smd_system ("/dev/smdcntl1").toList 2).1,
    (open_returns_underlying 3 (fun _ _ => -1) smd_system ("/dev/smdcntl1").toList 2).2
      (by decide)⟩

/-- C9. Mixed-set scenario: with the tracked descriptor `t` set, for every caller timeout,
the wrapped `poll` on (a) `t` requesting `POLLOUT` only, (b) a descriptor requesting
`POLLIN`, (c) a descriptor requesting `POLLIN`, with an underlying `poll` that reports
nothing for (a), `POLLIN` for (b) and nothing for (c), returns 2 with `revents`
`POLLOUT`, `POLLIN` and 0. -/
theorem poll_mixed_set (t b c : Int) (real_func : real_poll) (timeout ra rb rc : Int)
    (hset : 0 ≤ t)
    (hreal : (real_func.run [⟨t, 0, ra⟩, ⟨b, POLLIN, rb⟩, ⟨c, POLLIN, rc⟩] 0).1
      = [⟨t, 0, 0⟩, ⟨b, POLLIN, POLLIN⟩, ⟨c, POLLIN, 0⟩]) :
    (poll t real_func [⟨t, POLLOUT, ra⟩, ⟨b, POLLIN, rb⟩, ⟨c, POLLIN, rc⟩] timeout).ret = 2 ∧
    (poll t real_func [⟨t, POLLOUT, ra⟩, ⟨b, POLLIN, rb⟩, ⟨c, POLLIN, rc⟩] timeout).fds.map
        pollfd.revents = [POLLOUT, POLLIN, 0] := by
  have hargs : poll_args t [⟨t, POLLOUT, ra⟩, ⟨b, POLLIN, rb⟩, ⟨c, POLLIN, rc⟩] timeout
      = ([⟨t, 0, ra⟩, ⟨b, POLLIN, rb⟩, ⟨c, POLLIN, rc⟩], 0) := by
    simp [poll_args, poll_rewrite, hset, land_POLLOUT_self, land_POLLOUT_lnot,
      land_POLLIN_POLLOUT]
  have hunder :
      (poll_under t real_func [⟨t, POLLOUT, ra⟩, ⟨b, POLLIN, rb⟩, ⟨c, POLLIN, rc⟩] timeout).1
        = [⟨t, 0, 0⟩, ⟨b, POLLIN, POLLIN⟩, ⟨c, POLLIN, 0⟩] := by
    simp only [poll_under, hargs, hreal]
  have h1 : wrapInt 1 = 1 := by decide
  have h2 : wrapInt 2 = 2 := by decide
  have h3 : POLLOUT ≠ 0 := by decide
  have h4 : POLLIN ≠ 0 := by decide
  constructor
  · simp [poll, hset, hunder, poll_reconcile, synthesize, land_POLLOUT_self, lor_zero_POLLOUT,
      land_zero_error_mask, land_POLLIN_POLLOUT, h1, h2, h3, h4]
  · simp [poll, hset, hunder, poll_reconcile, synthesize, land_POLLOUT_self, lor_zero_POLLOUT,
      land_zero_error_mask, land_POLLIN_POLLOUT]

/-- The mixed-set theorem at tracked descriptor 3, a readable descriptor 7 and an idle
descriptor 8, caller timeout `-1`. -/
theorem poll_mixed_set_witness :
    (0 : Int) ≤ 3 ∧
    (poll 3 (readable_poll [7]) [⟨3, POLLOUT, 0⟩, ⟨7, POLLIN, 0⟩, ⟨8, POLLIN, 0⟩] (-1)).ret = 2 ∧
    (poll 3 (readable_poll [7]) [⟨3, POLLOUT, 0⟩, ⟨7, POLLIN, 0⟩, ⟨8, POLLIN, 0⟩] (-1)).fds.map
        pollfd.revents = [POLLOUT, POLLIN, 0] :=
  ⟨by decide,
    poll_mixed_set 3 7 8 (readable_poll [7]) (-1) 0 0 0 (by decide) (by decide)⟩

/-- The part of C10 that holds: `is_smd_device` is a total function to 0/1 that returns
false when `fstat` fails, when the descriptor is not a character device and when the link
cannot be read; when all three succeed it returns whether the segment occurs in the C
string that starts at `linkpath`, which is the link's first 128 bytes followed by whatever
the stack held behind them. -/
theorem is_smd_device_fails_closed (sys : System) (fd : Int) :
    (sys.fstat fd = none → is_smd_device sys fd = false) ∧
    (∀ st, sys.fstat fd = some st → S_ISCHR st.st_mode = false →
      is_smd_device sys fd = false) ∧
    (∀ st, sys.fstat fd = some st →
      sys.readlink ((sys_dev_char (sys.major st.st_rdev) (sys.minor st.st_rdev)).take 63) = none →
      is_smd_device sys fd = false) ∧
    (∀ st contents, sys.fstat fd = some st → S_ISCHR st.st_mode = true →
      sys.readlink ((sys_dev_char (sys.major st.st_rdev) (sys.minor st.st_rdev)).take 63)
        = some contents →
      is_smd_device sys fd
        = strstr (readlink_buf contents sys.linkpath_mem 128) ("/smdpkt/").toList) := by
  refine ⟨?_, ?_, ?_, ?_⟩
  · intro h
    simp [is_smd_device, is_smd_device_calls, h]
  · intro st h hc
    simp [is_smd_device, is_smd_device_calls, h, hc]
  · intro st h hr
    have hn : ¬ (((sys_dev_char (sys.major st.st_rdev) (sys.minor st.st_rdev)).length : Int) < 0) := by
      omega
    by_cases hc : S_ISCHR st.st_mode = true
    · simp [is_smd_device, is_smd_device_calls, h, hc, hr, hn]
    · simp [is_smd_device, is_smd_device_calls, h, hc]
  · intro st contents h hc hr
    have hn : ¬ (((sys_dev_char (sys.major st.st_rdev) (sys.minor st.st_rdev)).length : Int) < 0) := by
      omega
    simp [is_smd_device, is_smd_device_calls, h, hc, hr, hn]

/-- C10. The classifier reports a match for a link that does not contain the segment: on
a character device whose registry link reads `../../devices/null` (18 bytes, no
`/smdpkt/` in it), with the stack under `linkpath` still holding the text of an smdpkt
link, `readlink` overwrites the first 18 bytes only and appends no terminator, the C
string that `strstr` scans is `../../devices/nullual/smdpkt/smdcntl0`, and
`is_smd_device` returns true. -/
theorem is_smd_device_scans_stale_bytes :
    stale_system.fstat 5 = some ⟨0o020666, 63747⟩ ∧
    S_ISCHR 0o020666 = true ∧
    stale_system.readlink ((sys_dev_char 249 3).take 63) = some short_link ∧
    ¬ (("/smdpkt/").toList <:+: short_link) ∧
    c_str (readlink_buf short_link stale_system.linkpath_mem 128)
      = ("../../devices/nullual/smdpkt/smdcntl0").toList ∧
    is_smd_device stale_system 5 = true := by
  decide

/-- C11. Pre-call rewrite: with the tracked descriptor set, the array handed to the
underlying `poll` is the caller's array in which exactly the entries whose descriptor is
the tracked one and whose requested events include `POLLOUT` have had `events` replaced
by `events & ~POLLOUT`, every other entry and every other field being the caller's; the
timeout handed over is 0 when there is such an entry and the caller's timeout otherwise;
and bit `k` of `e & ~POLLOUT` is bit `k` of `e` unless it is a bit of `POLLOUT`, where it
is clear. -/
theorem poll_args_rewrite (smd_fd : Int) (fds : List pollfd) (timeout : Int)
    (hset : 0 ≤ smd_fd) :
    (poll_args smd_fd fds timeout).1
      = fds.map (fun p =>
          if p.fd = smd_fd ∧ Int.land p.events POLLOUT ≠ 0
          then { p with events := Int.land p.events (Int.lnot POLLOUT) } else p) ∧
    (poll_args smd_fd fds timeout).2
      = (if ∃ p ∈ fds, p.fd = smd_fd ∧ Int.land p.events POLLOUT ≠ 0 then 0 else timeout) ∧
    (∀ (e : Int) (k : Nat),
      Int.testBit (Int.land e (Int.lnot POLLOUT)) k
        = (Int.testBit e k && !Int.testBit POLLOUT k)) := by
  refine ⟨?_, ?_, ?_⟩
  · simp only [poll_args, ge_iff_le, hset, if_true, poll_rewrite_fds]
    rfl
  · simp only [poll_args, ge_iff_le, hset, if_true, poll_rewrite_timeout]
    rfl
  · intro e k
    rw [Int.testBit_land, Int.testBit_lnot]

/-- The rewrite theorem at tracked descriptor 3 and an array with a participating entry,
an entry for descriptor 3 that requests `POLLIN` only, and an unrelated entry. -/
theorem poll_args_rewrite_witness :
    (0 : Int) ≤ 3 ∧
    (poll_args 3 [⟨3, 5, 0⟩, ⟨3, 1, 0⟩, ⟨7, 4, 0⟩] (-1)).1
      = ([⟨3, 5, 0⟩, ⟨3, 1, 0⟩, ⟨7, 4, 0⟩] : List pollfd).map (fun p =>
          if p.fd = 3 ∧ Int.land p.events POLLOUT ≠ 0
          then { p with events := Int.land p.events (Int.lnot POLLOUT) } else p) ∧
    (poll_args 3 [⟨3, 5, 0⟩, ⟨3, 1, 0⟩, ⟨7, 4, 0⟩] (-1)).2
      = (if ∃ p ∈ ([⟨3, 5, 0⟩, ⟨3, 1, 0⟩, ⟨7, 4, 0⟩] : List pollfd),
            p.fd = 3 ∧ Int.land p.events POLLOUT ≠ 0 then 0 else -1) ∧
    (poll_args 3 [⟨3, 5, 0⟩, ⟨3, 1, 0⟩, ⟨7, 4, 0⟩] (-1))
      = ([⟨3, 1, 0⟩, ⟨3, 1, 0⟩, ⟨7, 4, 0⟩], 0) :=
  ⟨by decide,
    (poll_args_rewrite 3 [⟨3, 5, 0⟩, ⟨3, 1, 0⟩, ⟨7, 4, 0⟩] (-1) (by decide)).1,
    (poll_args_rewrite 3 [⟨3, 5, 0⟩, ⟨3, 1, 0⟩, ⟨7, 4, 0⟩] (-1) (by decide)).2.1,
    by with_unfolding_all decide⟩

/-- C12. Entries that do not participate pass through: with the tracked descriptor set,
for every entry `i` that does not both equal the tracked descriptor and request `POLLOUT`
(an entry for the tracked descriptor that requests other events only, or an entry for
another descriptor), the entry handed to the underlying `poll` is the caller's, requested
events included, and the final entry, `revents` included, is the one the underlying `poll`
left (the underlying `poll` leaving the descriptor of entry `i` untouched). -/
theorem poll_nonparticipating_passthrough (smd_fd : Int) (real_func : real_poll)
    (fds : List pollfd) (timeout : Int) (i : Nat) (p u : pollfd)
    (hset : 0 ≤ smd_fd)
    (hp : fds[i]? = some p)
    (hnp : ¬ (p.fd = smd_fd ∧ Int.land p.events POLLOUT ≠ 0))
    (hu : (poll_under smd_fd real_func fds timeout).1[i]? = some u)
    (hkeep : u.fd = p.fd) :
    (poll_args smd_fd fds timeout).1[i]? = some p ∧
    (poll smd_fd real_func fds timeout).fds[i]? = some u := by
  constructor
  · simp only [poll_args, ge_iff_le, hset, if_true, poll_rewrite_fds, List.getElem?_map, hp,
      Option.map_some']
    have : ¬ participates smd_fd p := hnp
    simp [this]
  · simp only [poll, ge_iff_le, hset, if_true, poll_reconcile_fds]
    rw [List.getElem?_zipWith, hp, hu]
    have h2 : ¬ (u.fd = smd_fd ∧ Int.land p.events POLLOUT ≠ 0) := by
      rw [hkeep]; exact hnp
    simp only [synthesize, if_neg h2]

/-- The pass-through theorem at entry 1 of an array whose entry 1 is for the tracked
descriptor 3 and requests `POLLIN` only, with an underlying `poll` that reports it
readable. -/
theorem poll_nonparticipating_passthrough_witness :
    (poll_args 3 [⟨3, 4, 0⟩, ⟨3, 1, 0⟩, ⟨7, 4, 0⟩] (-1)).1[1]? = some ⟨3, 1, 0⟩ ∧
    (poll 3 (readable_poll [3]) [⟨3, 4, 0⟩, ⟨3, 1, 0⟩, ⟨7, 4, 0⟩] (-1)).fds[1]?
      = some ⟨3, 1, 1⟩ :=
  poll_nonparticipating_passthrough 3 (readable_poll [3]) [⟨3, 4, 0⟩, ⟨3, 1, 0⟩, ⟨7, 4, 0⟩]
    (-1) 1 ⟨3, 1, 0⟩ ⟨3, 1, 1⟩ (by decide) (by rfl) (by decide)
    (by with_unfolding_all decide) (by rfl)

/-- C13. State update of `open`: for every prior value of the tracked descriptor, after a
wrapped `open` whose underlying result is `fd`, the tracked descriptor is `fd` when
`fd ≥ 0` and the classifier matches `fd` (whatever was recorded before), and is its prior
value otherwise; the `ioctl` calls the wrapper issued are exactly one
`ioctl(fd, SMD_PKT_IOCTL_BLOCKING_WRITE, &1)` in the first case and none in the second. -/
theorem open_state_update (smd_fd : Int) (real_func : List Char → Int → Int)
    (sys : System) (pathname : List Char) (flags : Int) :
    (wrapper_open smd_fd real_func sys pathname flags).smd_fd
      = (if 0 ≤ real_func pathname flags ∧ is_smd_device sys (real_func pathname flags) = true
         then real_func pathname flags else smd_fd) ∧
    (wrapper_open smd_fd real_func sys pathname flags).calls.filter Call.is_ioctl
      = (if 0 ≤ real_func pathname flags ∧ is_smd_device sys (real_func pathname flags) = true
         then [Call.ioctl (real_func pathname flags) SMD_PKT_IOCTL_BLOCKING_WRITE 1]
         else []) := by
  have hc := is_smd_device_calls_no_ioctl sys (real_func pathname flags)
  unfold wrapper_open is_smd_device
  by_cases h0 : 0 ≤ real_func pathname flags
  · by_cases h1 : (is_smd_device_calls sys (real_func pathname flags)).1 = true
    · simp [h0, h1, hc, Call.is_ioctl]
    · simp [h0, h1, hc]
  · simp [h0]

/-- C14. The tracked descriptor over a run: after every sequence of wrapped `open` and
`poll` calls from the initial state (`smd_fd = -1`) the tracked descriptor is `-1` or
non-negative; once it is non-negative it is non-negative after every further sequence of
calls; and a wrapped `poll` leaves it as it is, at any value and so at the end of any such
sequence. -/
theorem tracked_descriptor_absorbing (ops more : List Op) :
    (run smd_fd_init ops = -1 ∨ 0 ≤ run smd_fd_init ops) ∧
    (0 ≤ run smd_fd_init ops → 0 ≤ run smd_fd_init (ops ++ more)) ∧
    (∀ (smd_fd : Int) (real_func : real_poll) (fds : List pollfd) (timeout : Int),
      (poll smd_fd real_func fds timeout).smd_fd = smd_fd ∧
      run smd_fd_init (ops ++ [Op.call_poll real_func fds timeout])
        = run smd_fd_init ops) := by
  refine ⟨run_unset_or_nonneg ops smd_fd_init (Or.inl rfl), ?_, ?_⟩
  · intro h
    have : run smd_fd_init (ops ++ more) = run (run smd_fd_init ops) more := by
      simp [run, List.foldl_append]
    rw [this]
    exact run_nonneg more _ h
  · intro smd_fd real_func fds timeout
    refine ⟨poll_smd_fd smd_fd real_func fds timeout, ?_⟩
    simp [run, List.foldl_append, step, poll_smd_fd]

/-- The run theorem at an `open` of an smdpkt device that yields descriptor 3, followed by
a `poll`, a failed `open` and an `open` of `/dev/null`: the tracked descriptor is 3 after
the first call and is still non-negative at the end. -/
theorem tracked_descriptor_absorbing_witness :
    run smd_fd_init [Op.call_open (fun _ _ => 3) smd_system ("/dev/smdcntl0").toList 2] = 3 ∧
    0 ≤ run smd_fd_init
      ([Op.call_open (fun _ _ => 3) smd_system ("/dev/smdcntl0").toList 2] ++
        [Op.call_poll failing_poll [⟨3, 4, 0⟩] (-1),
         Op.call_open (fun _ _ => -1) smd_system ("/dev/smdcntl1").toList 2,
         Op.call_open (fun _ _ => 4) null_system ("/dev/null").toList 2]) :=
  ⟨by decide,
    (tracked_descriptor_absorbing
      [Op.call_open (fun _ _ => 3) smd_system ("/dev/smdcntl0").toList 2]
      [Op.call_poll failing_poll [⟨3, 4, 0⟩] (-1),
       Op.call_open (fun _ _ => -1) smd_system ("/dev/smdcntl1").toList 2,
       Op.call_open (fun _ _ => 4) null_system ("/dev/null").toList 2]).2.1 (by decide)⟩

/-- C15. Transparency when the device does not participate: with the tracked descriptor
set, for every array (of fewer than 2^31 entries) in which no entry both equals the
tracked descriptor and requests `POLLOUT`, and every underlying `poll` that leaves the
descriptors untouched and whose return value is the number of entries it left with
non-zero `revents`, the wrapped `poll` hands the caller's array and timeout unchanged to
the underlying `poll` and returns the same array and the same value as it. -/
theorem poll_transparent_without_participant (smd_fd : Int) (real_func : real_poll)
    (fds : List pollfd) (timeout : Int)
    (hset : 0 ≤ smd_fd) (hlen : fds.length < 2147483648)
    (hnone : ∀ p ∈ fds, ¬ (p.fd = smd_fd ∧ Int.land p.events POLLOUT ≠ 0))
    (hkeep : (real_func.run fds timeout).1.map pollfd.fd = fds.map pollfd.fd)
    (hret : (real_func.run fds timeout).2
      = (ready_count (real_func.run fds timeout).1 : Int)) :
    poll_args smd_fd fds timeout = (fds, timeout) ∧
    (poll smd_fd real_func fds timeout).fds = (real_func.run fds timeout).1 ∧
    (poll smd_fd real_func fds timeout).ret = (real_func.run fds timeout).2 := by
  have hargs : poll_args smd_fd fds timeout = (fds, timeout) := by
    simp only [poll_args, ge_iff_le, hset, if_true]
    exact poll_rewrite_no_participant smd_fd fds timeout hnone
  have hunder : poll_under smd_fd real_func fds timeout = real_func.run fds timeout := by
    simp only [poll_under, hargs]
  have hfds : (poll smd_fd real_func fds timeout).fds = (real_func.run fds timeout).1 := by
    simp only [poll, ge_iff_le, hset, if_true, poll_reconcile_fds, hunder]
    exact zipWith_synthesize_no_participant smd_fd fds _ hkeep hnone
  refine ⟨hargs, hfds, ?_⟩
  have hl := real_func.length_run fds timeout
  have hc := poll_reconcile_count smd_fd fds (real_func.run fds timeout).1 0
    (le_refl _) (by rw [hl]; omega)
  have hr : (poll smd_fd real_func fds timeout).ret
      = (poll_reconcile smd_fd fds (real_func.run fds timeout).1 0).2 := by
    simp only [poll, ge_iff_le, hset, if_true, hunder]
  rw [hr, hc, hret, poll_reconcile_fds,
    zipWith_synthesize_no_participant smd_fd fds _ hkeep hnone]
  simp

/-- The transparency theorem at tracked descriptor 3 and an array with an entry for
descriptor 3 that requests `POLLIN` only and an entry for descriptor 7 that requests
`POLLOUT`, with an underlying `poll` that reports descriptor 3 readable. -/
theorem poll_transparent_without_participant_witness :
    poll_args 3 [⟨3, 1, 0⟩, ⟨7, 4, 0⟩] 250 = ([⟨3, 1, 0⟩, ⟨7, 4, 0⟩], 250) ∧
    (poll 3 (readable_poll [3]) [⟨3, 1, 0⟩, ⟨7, 4, 0⟩] 250).fds
      = ((readable_poll [3]).run [⟨3, 1, 0⟩, ⟨7, 4, 0⟩] 250).1 ∧
    (poll 3 (readable_poll [3]) [⟨3, 1, 0⟩, ⟨7, 4, 0⟩] 250).ret
      = ((readable_poll [3]).run [⟨3, 1, 0⟩, ⟨7, 4, 0⟩] 250).2 :=
  poll_transparent_without_participant 3 (readable_poll [3]) [⟨3, 1, 0⟩, ⟨7, 4, 0⟩] 250
    (by decide) (by decide) (by decide) (by rfl) (by decide)

/-- C16. Re-use of the array loses the synthesis: with the tracked descriptor set and an
underlying `poll` that leaves descriptors and requested events untouched, after a wrapped
`poll` no entry for the tracked descriptor has `POLLOUT` in its requested events; so a
second wrapped `poll` on the array the first one left hands that array and the caller's
timeout unchanged to the underlying `poll`, and leaves the array exactly as the
underlying `poll` left it, with `POLLOUT` synthesized on no entry. -/
theorem poll_reuse_loses_synthesis (smd_fd : Int) (real_func : real_poll)
    (fds : List pollfd) (timeout : Int)
    (hset : 0 ≤ smd_fd)
    (hkeep : ∀ a t, (real_func.run a t).1.map (fun p => (p.fd, p.events))
      = a.map (fun p => (p.fd, p.events))) :
    (∀ p ∈ (poll smd_fd real_func fds timeout).fds,
      p.fd = smd_fd → Int.land p.events POLLOUT = 0) ∧
    (∀ timeout2, poll_args smd_fd (poll smd_fd real_func fds timeout).fds timeout2
      = ((poll smd_fd real_func fds timeout).fds, timeout2)) ∧
    (∀ timeout2,
      (poll smd_fd real_func (poll smd_fd real_func fds timeout).fds timeout2).fds
        = (real_func.run (poll smd_fd real_func fds timeout).fds timeout2).1) := by
  have hA : (poll smd_fd real_func fds timeout).fds
      = List.zipWith (synthesize smd_fd) fds (poll_under smd_fd real_func fds timeout).1 := by
    simp only [poll, ge_iff_le, hset, if_true, poll_reconcile_fds]
  have hpair : (poll smd_fd real_func fds timeout).fds.map (fun p => (p.fd, p.events))
      = (fds.map (fun p => if participates smd_fd p then clear_POLLOUT p else p)).map
          (fun p => (p.fd, p.events)) := by
    rw [hA, zipWith_synthesize_keep smd_fd fds _
      (poll_under_length smd_fd real_func fds timeout).symm]
    simp only [poll_under, poll_args, ge_iff_le, hset, if_true, hkeep, poll_rewrite_fds]
  have h1 : ∀ p ∈ (poll smd_fd real_func fds timeout).fds,
      p.fd = smd_fd → Int.land p.events POLLOUT = 0 := by
    intro p hp hfd
    have hm : (p.fd, p.events)
        ∈ (poll smd_fd real_func fds timeout).fds.map (fun p => (p.fd, p.events)) :=
      List.mem_map_of_mem _ hp
    rw [hpair] at hm
    simp only [List.map_map, List.mem_map, Function.comp_apply, Prod.mk.injEq] at hm
    obtain ⟨q, _, hq1, hq2⟩ := hm
    by_cases hq : participates smd_fd q
    · simp only [hq, if_true, clear_POLLOUT] at hq1 hq2
      rw [← hq2]
      exact land_clear_POLLOUT q.events
    · simp only [hq, if_false] at hq1 hq2
      rw [← hq2]
      by_contra hne
      exact hq ⟨hq1.trans hfd, hne⟩
  have hnone : ∀ p ∈ (poll smd_fd real_func fds timeout).fds, ¬ participates smd_fd p := by
    intro p hp hq
    exact hq.2 (h1 p hp hq.1)
  have h2 : ∀ timeout2, poll_args smd_fd (poll smd_fd real_func fds timeout).fds timeout2
      = ((poll smd_fd real_func fds timeout).fds, timeout2) := by
    intro timeout2
    simp only [poll_args, ge_iff_le, hset, if_true]
    exact poll_rewrite_no_participant smd_fd _ timeout2 hnone
  refine ⟨h1, h2, ?_⟩
  intro timeout2
  have hk := hkeep (poll smd_fd real_func fds timeout).fds timeout2
  have hkfd : (real_func.run (poll smd_fd real_func fds timeout).fds timeout2).1.map pollfd.fd
      = (poll smd_fd real_func fds timeout).fds.map pollfd.fd := by
    have := congrArg (List.map Prod.fst) hk
    simpa [List.map_map, Function.comp_def] using this
  have hstep : (poll smd_fd real_func (poll smd_fd real_func fds timeout).fds timeout2).fds
      = List.zipWith (synthesize smd_fd) (poll smd_fd real_func fds timeout).fds
          (real_func.run (poll smd_fd real_func fds timeout).fds timeout2).1 := by
    generalize (poll smd_fd real_func fds timeout).fds = A at h2
    simp only [poll, ge_iff_le, hset, if_true, poll_reconcile_fds, poll_under, h2]
  rw [hstep]
  exact zipWith_synthesize_no_participant smd_fd _ _ hkfd hnone

/-- The re-use theorem at tracked descriptor 3, a caller that asks for `POLLOUT` on it and
waits for ever, and an underlying `poll` that reports nothing. -/
theorem poll_reuse_loses_synthesis_witness :
    (∀ p ∈ (poll 3 (stub_poll (fun _ => 0) 0) [⟨3, 4, 0⟩, ⟨7, 1, 0⟩] (-1)).fds,
      p.fd = 3 → Int.land p.events POLLOUT = 0) ∧
    (∀ timeout2,
      poll_args 3 (poll 3 (stub_poll (fun _ => 0) 0) [⟨3, 4, 0⟩, ⟨7, 1, 0⟩] (-1)).fds timeout2
        = ((poll 3 (stub_poll (fun _ => 0) 0) [⟨3, 4, 0⟩, ⟨7, 1, 0⟩] (-1)).fds, timeout2)) ∧
    (∀ timeout2,
      (poll 3 (stub_poll (fun _ => 0) 0)
          (poll 3 (stub_poll (fun _ => 0) 0) [⟨3, 4, 0⟩, ⟨7, 1, 0⟩] (-1)).fds timeout2).fds
        = ((stub_poll (fun _ => 0) 0).run
            (poll 3 (stub_poll (fun _ => 0) 0) [⟨3, 4, 0⟩, ⟨7, 1, 0⟩] (-1)).fds timeout2).1) :=
  poll_reuse_loses_synthesis 3 (stub_poll (fun _ => 0) 0) [⟨3, 4, 0⟩, ⟨7, 1, 0⟩] (-1)
    (by decide) (by intro a t; simp [stub_poll, Function.comp_def])

end SmdWrapper
